import Mathlib

/-!
Shallow embedding of the task-lifecycle core of `src/app.py` (a Flask
YouTube-downloader web app): the thread-safe task registry, the yt-dlp
progress hook, the format-fallback download loop of `_run_download`,
the periodic TTL cleanup sweep, and the `/api/prepare` admission gate.

Registry records are Python dicts; we model them as a record whose
field defaults equal the `.get` defaults used at every read site, and
the registry itself as an association list (Python dicts have unique
keys and preserve insertion order).  Timestamps are modelled as
integers (only their ordering and differences matter to the code),
byte counters as naturals, and Python float truncation
`int((downloaded/total)*100)` as natural floor division, exact for the
non-negative values the engine reports.
-/

/-- `MAX_CONCURRENT` (app.py line 33). -/
def MAX_CONCURRENT : Nat := 3

/-- `FILE_TTL_SEC` (app.py line 35), in seconds. -/
def FILE_TTL_SEC : Int := 1800

/-- One record of the `_tasks` dict.  A key a given update never set is
read back through `.get` with the defaults shown here. -/
structure TaskRec where
  status : String := ""
  percent : Nat := 0
  speed : String := ""
  eta : String := ""
  message : String := ""
  title : String := ""
  channel : String := ""
  url : String := ""
  format : String := ""
  quality : String := ""
  created_at : Int := 0
  filepath : String := ""
  filename : String := ""
  filesize : Nat := 0
  deriving Repr, DecidableEq

abbrev TaskId := String

/-- The `_tasks` dict (app.py line 81), as an association list. -/
abbrev Registry := List (TaskId × TaskRec)

/-- `_get_task` (app.py 90-92): a copy of the record, `none` when the
id is absent (Python returns an empty dict, tested with `not task`). -/
def _get_task : Registry → TaskId → Option TaskRec
  | [], _ => none
  | (k, t) :: rest, id => if k = id then some t else _get_task rest id

/-- `_update_task` (app.py 95-98): merge fields into the stored record
when the id is present, otherwise do nothing.  A keyword-argument merge
is modelled as a function on the record. -/
def _update_task (reg : Registry) (id : TaskId) (f : TaskRec → TaskRec) : Registry :=
  reg.map (fun p => if p.1 = id then (p.1, f p.2) else p)

/-- `_create_task` (app.py 85-87): plain dict assignment
`_tasks[task_id] = kw` — inserts a fresh record, or replaces whatever
record was already stored under the id. -/
def _create_task (reg : Registry) (id : TaskId) (t : TaskRec) : Registry :=
  if (_get_task reg id).isSome then _update_task reg id (fun _ => t)
  else reg ++ [(id, t)]

/-- `_remove_task` (app.py 101-103). -/
def _remove_task (reg : Registry) (id : TaskId) : Registry :=
  reg.filter (fun p => decide (p.1 ≠ id))

/-- The status test inside `_count_active` (app.py 106-112). -/
def isActiveStatus (s : String) : Bool :=
  s == "starting" || s == "downloading" || s == "processing"

/-- `_count_active` (app.py 106-112). -/
def _count_active (reg : Registry) : Nat :=
  (reg.filter (fun p => isActiveStatus p.2.status)).length

/-- Does `needle` match the front of `hay`? (character lists) -/
def leadMatch : List Char → List Char → Bool
  | [], _ => true
  | _ :: _, [] => false
  | a :: as, b :: bs => a == b && leadMatch as bs

/-- Does `needle` occur contiguously anywhere in `hay`? -/
def inChars (needle : List Char) : List Char → Bool
  | [] => leadMatch needle []
  | b :: bs => leadMatch needle (b :: bs) || inChars needle bs

/-- Python substring containment `needle in hay`. -/
def pyIn (needle hay : String) : Bool :=
  inChars needle.data hay.data

/-- Python `str.startswith(pre)`. -/
def strStarts (s pre : String) : Bool :=
  leadMatch pre.data s.data

/-- `str.lower()` on the code points the error messages use. -/
def lowerStr (s : String) : String :=
  String.mk (s.data.map Char.toLower)

/-- The whitespace `str.strip()` removes. -/
def isSpaceChar (c : Char) : Bool :=
  c == ' ' || c == '\t' || c == '\n' || c == '\r'

/-- Python `str.strip()`: drop whitespace from both ends. -/
def pyStrip (s : String) : String :=
  String.mk (((s.data.dropWhile isSpaceChar).reverse.dropWhile isSpaceChar).reverse)

/-- The auth / bot-detection test of app.py line 286: markers searched
in the lowered failure message. -/
def isAuthError (msg : String) : Bool :=
  pyIn "sign in" (lowerStr msg) || pyIn "bot" (lowerStr msg)

/-- The dict yt-dlp passes to a progress hook, restricted to the keys
`_progress_hook` reads.  `none` models a missing key. -/
structure HookEvent where
  status : Option String := none
  total_bytes : Option Nat := none
  total_bytes_estimate : Option Nat := none
  downloaded_bytes : Option Nat := none
  speed_str : Option String := none
  eta_str : Option String := none
  deriving Repr, DecidableEq

/-- The exceptions the embedded fragments can raise. -/
inductive PyError where
  | keyError (key : String)
  deriving Repr, DecidableEq

/-- Python `a or b` over numbers-or-missing: `None` and `0` are falsy. -/
def truthyOr (a : Option Nat) (k : Nat) : Nat :=
  match a with
  | some x => if x = 0 then k else x
  | none => k

/-- `total` of the downloading branch (app.py 159):
`d.get("total_bytes") or d.get("total_bytes_estimate") or 0`. -/
def hookTotal (d : HookEvent) : Nat :=
  truthyOr d.total_bytes (truthyOr d.total_bytes_estimate 0)

/-- The percent computed at app.py 161:
`min(int((downloaded / total) * 100), 99) if total > 0 else 0`. -/
def hookPct (d : HookEvent) : Nat :=
  if 0 < hookTotal d then
    min (d.downloaded_bytes.getD 0 * 100 / hookTotal d) 99
  else 0

/-- `_progress_hook` (app.py 153-170).  The absent / cancelled guard
comes first; then `d["status"]` is read, which raises `KeyError` when
the key is missing — the function body contains no exception handler. -/
def _progress_hook (d : HookEvent) (reg : Registry) (id : TaskId) :
    Except PyError Registry :=
  match _get_task reg id with
  | none => .ok reg
  | some task =>
    if task.status = "cancelled" then .ok reg
    else
      match d.status with
      | none => .error (.keyError "status")
      | some s =>
        if s = "downloading" then
          .ok (_update_task reg id (fun t =>
            { t with status := "downloading", percent := hookPct d,
                     speed := d.speed_str.getD "", eta := d.eta_str.getD "" }))
        else if s = "finished" then
          .ok (_update_task reg id (fun t =>
            { t with status := "processing", percent := 99,
                     message := "変換処理中...", speed := "", eta := "" }))
        else .ok reg

/-- One hook invocation as seen by the registry (an invocation that
raises aborts before issuing its update, leaving the registry as is). -/
def hookStep (id : TaskId) (reg : Registry) (d : HookEvent) : Registry :=
  match _progress_hook d reg id with
  | .ok r => r
  | .error _ => reg

/-- The registry after a sequence of hook invocations for task `id`. -/
def runHooks (id : TaskId) (reg : Registry) (evs : List HookEvent) : Registry :=
  evs.foldl (hookStep id) reg

/-- The task's `percent` value observed after each hook invocation of a
sequence (skipped when the task has disappeared). -/
def percentTrace (id : TaskId) (reg : Registry) : List HookEvent → List Nat
  | [] => []
  | d :: rest =>
    let reg' := hookStep id reg d
    (match _get_task reg' id with
     | some t => [t.percent]
     | none => []) ++ percentTrace id reg' rest

/-- The percent a live hook invocation writes: 99 on `finished`, the
computed `hookPct` on `downloading`. -/
def writtenPct (d : HookEvent) : Nat :=
  if d.status = some "finished" then 99 else hookPct d

/-- The terminal outcome the orchestrator records for its task. -/
inductive TaskFinal where
  | ready (filepath filename : String) (filesize : Nat)
  | error (msg : String)
  deriving Repr, DecidableEq

/-- The final registry update of `_run_download`: the success update of
app.py 319-323, or the `except` handler's update of app.py 326-328.
Neither checks the task's current status before merging. -/
def applyFinal (id : TaskId) (fin : TaskFinal) (reg : Registry) : Registry :=
  match fin with
  | .ready fp fn sz =>
    _update_task reg id (fun t =>
      { t with status := "ready", percent := 100, filepath := fp,
               filename := fn, filesize := sz,
               message := "ダウンロード準備完了" })
  | .error msg =>
    _update_task reg id (fun t => { t with status := "error", message := msg })

/-- `_video_format_chain` (app.py 174-185): the four candidates tried
in order for a video request with requested height `height`. -/
def _video_format_chain (height : Nat) : List String :=
  ["bestvideo[height<=" ++ toString height ++ "]+bestaudio",
   "bestvideo+bestaudio",
   "best[height<=" ++ toString height ++ "]",
   "best"]

/-- A regular file in the task's working directory. -/
structure FileEntry where
  name : String
  size : Nat
  deriving Repr, DecidableEq

/-- What one `ydl.download` call for a given format string does: either
return normally or raise, in both cases leaving files on disk. -/
inductive AttemptOutcome where
  | ok (written : List FileEntry)
  | fail (msg : String) (written : List FileEntry)
  deriving Repr, DecidableEq

/-- The partial-file cleanup after a generic failure (app.py 291-296):
every file whose name does not start with `cookies_` is deleted. -/
def cleanupPartials (dir : List FileEntry) : List FileEntry :=
  dir.filter (fun f => strStarts f.name "cookies_")

/-- The `for i, fmt_str in enumerate(format_candidates)` loop of
`_run_download` (app.py 237-298).  `engine` gives the outcome of the
`ydl.download` call per format string; `cookieFor i` is the fresh
cookie copy `_fresh_cookie_path` materialises for attempt `i` (possibly
none).  Returns `last_error`, the directory contents, and the list of
format strings actually attempted, in order. -/
def tryFormats (engine : String → AttemptOutcome) (cookieFor : Nat → List FileEntry) :
    List String → Nat → List FileEntry → Option String →
    Option String × List FileEntry × List String
  | [], _, dir, lastErr => (lastErr, dir, [])
  | fmt :: rest, i, dir, _ =>
    let dir1 := dir ++ cookieFor i
    match engine fmt with
    | .ok written => (none, dir1 ++ written, [fmt])
    | .fail msg written =>
      let dirF := dir1 ++ written
      if isAuthError msg then (some msg, dirF, [fmt])
      else
        let r := tryFormats engine cookieFor rest (i + 1) (cleanupPartials dirF) (some msg)
        (r.1, r.2.1, fmt :: r.2.2)

/-- The result-file filter of app.py 305-308: neither a cookie copy nor
a hidden file. -/
def isResultFile (f : FileEntry) : Bool :=
  !(strStarts f.name "cookies_") && !(strStarts f.name ".")

/-- Python `max(files, key=os.path.getsize)`: the first file of maximal
size (later files replace the current best only when strictly larger). -/
def pickLargest : List FileEntry → Option FileEntry
  | [] => none
  | f :: rest => some (rest.foldl (fun best g => if best.size < g.size then g else best) f)

/-- The post-loop tail of `_run_download` (app.py 304-323) when the
loop ended with `last_error = None`: scan the directory, fail with
`FileNotFoundError` when nothing remains, otherwise pick the largest
file as the artifact. -/
def finishScan (dir : List FileEntry) : TaskFinal :=
  match pickLargest (dir.filter isResultFile) with
  | none => .error "ダウンロードしたファイルが見つかりません"
  | some f => .ready f.name f.name f.size

/-- The whole attempt loop plus its tail (app.py 237-328): when the
loop left an error it is re-raised and caught, producing the `error`
update; otherwise the scan decides success. -/
def runCandidates (engine : String → AttemptOutcome) (cookieFor : Nat → List FileEntry)
    (cands : List String) (dir0 : List FileEntry) :
    TaskFinal × List FileEntry × List String :=
  let r := tryFormats engine cookieFor cands 0 dir0 none
  match r.1 with
  | some msg => (.error msg, r.2.1, r.2.2)
  | none => (finishScan r.2.1, r.2.1, r.2.2)

/-- `_run_download` for a video request whose metadata probe succeeded,
starting from the freshly created (empty) working directory. -/
def runDownloadVideo (engine : String → AttemptOutcome)
    (cookieFor : Nat → List FileEntry) (height : Nat) :
    TaskFinal × List FileEntry × List String :=
  runCandidates engine cookieFor (_video_format_chain height) []

/-- The status set of the cleanup sweep (app.py 136-138). -/
def removableStatus (s : String) : Bool :=
  s == "ready" || s == "error" || s == "completed"

/-- The ids one pass of `_cleanup_worker` (app.py 131-139) collects
under the lock: entries older than the TTL whose status is removable. -/
def sweepExpired (reg : Registry) (now : Int) : List TaskId :=
  (reg.filter (fun p =>
    decide (now - p.2.created_at > FILE_TTL_SEC) && removableStatus p.2.status)).map Prod.fst

/-- One full pass of `_cleanup_worker` (app.py 130-142): collect the
expired ids, then delete each one's working directory and registry
entry.  Returns the new registry and the ids whose directories were
removed. -/
def sweepPass (reg : Registry) (now : Int) : Registry × List TaskId :=
  let expired := sweepExpired reg now
  (expired.foldl (fun r tid => _remove_task r tid) reg, expired)

/-- The JSON body of a `/api/prepare` request (`request.json or {}`);
`none` models a missing key. -/
structure PrepareBody where
  url : Option String := none
  format : Option String := none
  quality : Option String := none
  deriving Repr, DecidableEq

/-- The HTTP outcomes of `api_prepare`. -/
inductive PrepareResponse where
  | busy429 (msg : String)
  | badRequest400 (msg : String)
  | ok200 (task_id : String)
  deriving Repr, DecidableEq

/-- `api_prepare` (app.py 407-438): the admission gate runs first, then
URL validation, then task creation.  `now` is `time.time()` and `newId`
the generated UUID hex.  Spawning the background thread has no registry
effect of its own and is not modelled here. -/
def api_prepare (reg : Registry) (body : PrepareBody) (now : Int) (newId : TaskId) :
    PrepareResponse × Registry :=
  if _count_active reg ≥ MAX_CONCURRENT then
    (.busy429 "サーバーが混雑しています。しばらくしてから再度お試しください。", reg)
  else
    let url := pyStrip (body.url.getD "")
    if url = "" then (.badRequest400 "URLを入力してください", reg)
    else if !(pyIn "youtube.com" url) && !(pyIn "youtu.be" url) then
      (.badRequest400 "有効なYouTube URLを入力してください", reg)
    else
      (.ok200 newId,
       _create_task reg newId
         { status := "starting", percent := 0, url := url,
           format := body.format.getD "video", quality := body.quality.getD "1080",
           created_at := now, message := "ダウンロードを開始しています..." })

/-! ## Registry lemmas -/

theorem get_cons (k : TaskId) (t : TaskRec) (rest : Registry) (id : TaskId) :
    _get_task ((k, t) :: rest) id = if k = id then some t else _get_task rest id := rfl

theorem update_cons (k : TaskId) (t : TaskRec) (rest : Registry) (id : TaskId)
    (f : TaskRec → TaskRec) :
    _update_task ((k, t) :: rest) id f =
      (if k = id then (k, f t) else (k, t)) :: _update_task rest id f := rfl

theorem remove_cons (k : TaskId) (t : TaskRec) (rest : Registry) (tid : TaskId) :
    _remove_task ((k, t) :: rest) tid =
      if k = tid then _remove_task rest tid else (k, t) :: _remove_task rest tid := by
  by_cases h : k = tid
  · simp [_remove_task, List.filter_cons, h]
  · simp [_remove_task, List.filter_cons, h]

theorem get_update_self (reg : Registry) (id : TaskId) (f : TaskRec → TaskRec) :
    _get_task (_update_task reg id f) id = (_get_task reg id).map f := by
  induction reg with
  | nil => rfl
  | cons p rest ih =>
    obtain ⟨k, t⟩ := p
    rw [update_cons]
    by_cases h : k = id
    · rw [if_pos h, get_cons, get_cons, if_pos h, if_pos h]
      rfl
    · rw [if_neg h, get_cons, get_cons, if_neg h, if_neg h, ih]

theorem get_remove (reg : Registry) (tid id : TaskId) :
    _get_task (_remove_task reg tid) id =
      if id = tid then none else _get_task reg id := by
  induction reg with
  | nil => simp [_remove_task, _get_task]
  | cons p rest ih =>
    obtain ⟨k, t⟩ := p
    rw [remove_cons]
    by_cases hk : k = tid
    · rw [if_pos hk, ih]
      by_cases hid : id = tid
      · simp [hid]
      · have hkid : ¬ k = id := fun e => hid (by rw [← e, hk])
        simp [hid, get_cons, hkid]
    · rw [if_neg hk, get_cons]
      by_cases hkid : k = id
      · have hid : ¬ id = tid := fun e => hk (by rw [hkid, e])
        simp [hkid, hid, get_cons]
      · rw [if_neg hkid, ih, get_cons, if_neg hkid]

theorem get_fold_remove (L : List TaskId) :
    ∀ (reg : Registry) (id : TaskId),
      _get_task (L.foldl (fun r tid => _remove_task r tid) reg) id =
        if id ∈ L then none else _get_task reg id := by
  induction L with
  | nil => intro reg id; simp
  | cons a L ih =>
    intro reg id
    by_cases h : id = a
    · subst h
      simp only [List.foldl_cons, ih, get_remove, List.mem_cons, true_or, if_true]
      split <;> simp
    · simp [List.foldl_cons, ih, get_remove, h]

theorem get_mem (reg : Registry) (id : TaskId) (t : TaskRec)
    (h : _get_task reg id = some t) : (id, t) ∈ reg := by
  induction reg with
  | nil => simp [_get_task] at h
  | cons p rest ih =>
    obtain ⟨k, u⟩ := p
    by_cases hk : k = id
    · subst hk
      simp [_get_task] at h
      simp [h]
    · simp [_get_task, hk] at h
      exact List.mem_cons_of_mem _ (ih h)

theorem mem_get_nodup (reg : Registry) (id : TaskId) (t t' : TaskRec)
    (hnd : (reg.map Prod.fst).Nodup)
    (ht : _get_task reg id = some t) (hmem : (id, t') ∈ reg) : t' = t := by
  induction reg with
  | nil => simp at hmem
  | cons p rest ih =>
    obtain ⟨k, u⟩ := p
    simp only [List.map_cons, List.nodup_cons] at hnd
    rcases List.mem_cons.mp hmem with hh | hh
    · have hk : id = k := congrArg Prod.fst hh
      have htu : t' = u := congrArg Prod.snd hh
      subst hk
      simp [_get_task] at ht
      exact htu.trans ht
    · by_cases hk : k = id
      · subst hk
        exfalso
        exact hnd.1 (by simpa using List.mem_map_of_mem Prod.fst hh)
      · simp [_get_task, hk] at ht
        exact ih hnd.2 ht hh

/-! ## Shared concrete fixtures -/

/-- A registry holding three active tasks (saturating the admission cap). -/
def busyReg : Registry :=
  [("a", { status := "starting" }), ("b", { status := "downloading" }),
   ("c", { status := "processing" })]

/-! ## Claim C1 -/

/-- Claim C1, counterexample: the orchestrator's final success update
(app.py 319-323) does not check the current status, so a task whose
status is the terminal `cancelled` gets overwritten with `ready`. -/
theorem c1_counterexample :
    (_get_task (applyFinal "t" (TaskFinal.ready "v.mp4" "v.mp4" 5)
        [("t", { status := "cancelled", percent := 42 })]) "t").map TaskRec.status =
      some "ready" := by
  decide

/-- Claim C1 (amended): the cancellation / absence check exists only in
the progress callback — when the task is absent or its status is
`cancelled`, a progress-callback invocation performs no registry update
at all; the orchestrator's final success/failure update carries no such
check and does overwrite a `cancelled` status. -/
theorem c1_amended_hook_noop (d : HookEvent) (reg : Registry) (id : TaskId)
    (h : _get_task reg id = none ∨
         ∃ t, _get_task reg id = some t ∧ t.status = "cancelled") :
    _progress_hook d reg id = .ok reg := by
  rcases h with h | ⟨t, ht, hc⟩
  · simp [_progress_hook, h]
  · simp [_progress_hook, ht, hc]

theorem c1_amended_hook_noop_witness :
    _progress_hook
        { status := some "downloading", total_bytes := some 10, downloaded_bytes := some 5 }
        [("t", { status := "cancelled" })] "t" =
      .ok [("t", { status := "cancelled" })] :=
  c1_amended_hook_noop _ _ _ (Or.inr ⟨_, rfl, rfl⟩)

/-! ## Claim C3 -/

/-- Claim C3, counterexample: with a live (non-cancelled) task, the
callback reads `d["status"]` unguarded, so a dict lacking the `status`
key makes it raise `KeyError` — there is no exception swallowing. -/
theorem c3_counterexample :
    _progress_hook {} [("t", { status := "downloading" })] "t" =
      .error (.keyError "status") := rfl

/-- Claim C3 (amended): the progress callback raises if and only if the
event dict lacks the `status` key while the task is present and not
cancelled; in every other situation (task absent, task cancelled, or a
dict carrying a `status` key) it returns without raising. -/
theorem c3_amended_raise_iff (d : HookEvent) (reg : Registry) (id : TaskId) :
    (∃ e, _progress_hook d reg id = .error e) ↔
      (d.status = none ∧ ∃ t, _get_task reg id = some t ∧ t.status ≠ "cancelled") := by
  cases hg : _get_task reg id with
  | none => simp [_progress_hook, hg]
  | some t =>
    by_cases hc : t.status = "cancelled"
    · simp [_progress_hook, hg, hc]
    · cases hs : d.status with
      | none => simp [_progress_hook, hg, hc, hs]
      | some s =>
        by_cases h1 : s = "downloading"
        · simp [_progress_hook, hg, hc, hs, h1]
        · by_cases h2 : s = "finished"
          · simp [_progress_hook, hg, hc, hs, h1, h2]
          · simp [_progress_hook, hg, hc, hs, h1, h2]

/-! ## Claim C4 -/

/-- Claim C4, counterexample: `_create_task` is plain dict assignment,
so invoking it with an id already in the registry replaces the stored
record (here the stored url `"a"` becomes `"b"`) instead of leaving the
existing record unchanged. -/
theorem c4_counterexample :
    _create_task [("t", { url := "a" })] "t" { url := "b" } =
      [("t", { url := "b" })] ∧
    ({ url := "b" } : TaskRec) ≠ { url := "a" } := by
  constructor
  · decide
  · decide

/-- Claim C4 (amended): invoking create with an identifier already
present raises no error (it is a total operation), but it replaces the
existing record with the new fields rather than leaving it unchanged. -/
theorem c4_amended_create_replaces (reg : Registry) (id : TaskId)
    (t r0 : TaskRec) (h : _get_task reg id = some r0) :
    _get_task (_create_task reg id t) id = some t := by
  have hs : (_get_task reg id).isSome := by rw [h]; rfl
  rw [_create_task, if_pos hs, get_update_self, h]
  rfl

theorem c4_amended_create_replaces_witness :
    _get_task (_create_task [("t", { url := "a" })] "t" { url := "b" }) "t" =
      some { url := "b" } :=
  c4_amended_create_replaces _ _ _ { url := "a" } rfl

/-! ## Claim C5 -/

/-- Claim C5: whenever the number of active records (status in
starting/downloading/processing) is at least `MAX_CONCURRENT`, the
prepare handler replies with the 429 busy response and leaves the
registry — in particular its task count — untouched: the gate runs
before anything is created. -/
theorem c5_admission_busy (reg : Registry) (body : PrepareBody) (now : Int)
    (newId : TaskId) (h : _count_active reg ≥ MAX_CONCURRENT) :
    api_prepare reg body now newId =
      (.busy429 "サーバーが混雑しています。しばらくしてから再度お試しください。", reg) := by
  rw [api_prepare, if_pos h]

theorem c5_admission_busy_witness :
    _count_active busyReg ≥ MAX_CONCURRENT ∧
    api_prepare busyReg { url := some "https://www.youtube.com/watch?v=x" } 0 "new" =
      (.busy429 "サーバーが混雑しています。しばらくしてから再度お試しください。", busyReg) :=
  ⟨by decide, c5_admission_busy _ _ _ _ (by decide)⟩

/-! ## Claim C9 -/

/-- Claim C9: the admission gate is evaluated before request-body
validation, so under load even a request with a missing or non-YouTube
URL receives the 429 busy response and creates no task — while the same
body against a non-saturated registry would have received a 400. -/
theorem c9_busy_beats_validation (reg : Registry) (body : PrepareBody) (now : Int)
    (newId : TaskId) (hbusy : _count_active reg ≥ MAX_CONCURRENT)
    (hinvalid : pyStrip (body.url.getD "") = "" ∨
      (pyIn "youtube.com" (pyStrip (body.url.getD "")) = false ∧
       pyIn "youtu.be" (pyStrip (body.url.getD "")) = false)) :
    api_prepare reg body now newId =
      (.busy429 "サーバーが混雑しています。しばらくしてから再度お試しください。", reg) ∧
    ∀ reg2 : Registry, _count_active reg2 < MAX_CONCURRENT →
      ∃ m, api_prepare reg2 body now newId = (.badRequest400 m, reg2) := by
  refine ⟨by rw [api_prepare, if_pos hbusy], ?_⟩
  intro reg2 h2
  have hn : ¬ _count_active reg2 ≥ MAX_CONCURRENT := by omega
  by_cases he : pyStrip (body.url.getD "") = ""
  · exact ⟨"URLを入力してください", by simp [api_prepare, hn, he]⟩
  · rcases hinvalid with h | ⟨h1, h2'⟩
    · exact absurd h he
    · exact ⟨"有効なYouTube URLを入力してください",
        by simp [api_prepare, hn, he, h1, h2']⟩

theorem c9_busy_beats_validation_witness :
    api_prepare busyReg { url := some "https://example.com/x" } 0 "new" =
      (.busy429 "サーバーが混雑しています。しばらくしてから再度お試しください。", busyReg) ∧
    ∀ reg2 : Registry, _count_active reg2 < MAX_CONCURRENT →
      ∃ m, api_prepare reg2 { url := some "https://example.com/x" } 0 "new" =
        (.badRequest400 m, reg2) :=
  c9_busy_beats_validation busyReg _ 0 "new" (by decide) (by right; constructor <;> decide)

/-! ## Claim C2 -/

theorem writtenPct_le_99 (d : HookEvent) : writtenPct d ≤ 99 := by
  rw [writtenPct]
  split
  · exact le_refl 99
  · rw [hookPct]
    split
    · exact min_le_right _ _
    · exact Nat.zero_le 99

/-- Effect of one live hook invocation on a present, non-cancelled task
carrying a `downloading` or `finished` status key: the task stays
present, non-cancelled, and its percent becomes `writtenPct d`. -/
theorem hookStep_live (id : TaskId) (reg : Registry) (d : HookEvent) (t : TaskRec)
    (ht : _get_task reg id = some t) (hc : ¬ t.status = "cancelled")
    (hd : d.status = some "downloading" ∨ d.status = some "finished") :
    ∃ t', _get_task (hookStep id reg d) id = some t' ∧
      t'.percent = writtenPct d ∧ ¬ t'.status = "cancelled" := by
  rcases hd with hd | hd
  · have hrun : hookStep id reg d =
        _update_task reg id (fun t =>
          { t with status := "downloading", percent := hookPct d,
                   speed := d.speed_str.getD "", eta := d.eta_str.getD "" }) := by
      rw [hookStep, _progress_hook, ht]
      simp [hc, hd]
    refine ⟨{ t with
                status := "downloading", percent := hookPct d,
                speed := d.speed_str.getD "", eta := d.eta_str.getD "" }, ?_, ?_, ?_⟩
    · rw [hrun, get_update_self, ht]; rfl
    · simp [writtenPct, hd]
    · simp
  · have hrun : hookStep id reg d =
        _update_task reg id (fun t =>
          { t with status := "processing", percent := 99,
                   message := "変換処理中...", speed := "", eta := "" }) := by
      rw [hookStep, _progress_hook, ht]
      simp [hc, hd]
    refine ⟨{ t with
                status := "processing", percent := 99,
                message := "変換処理中...", speed := "", eta := "" }, ?_, ?_, ?_⟩
    · rw [hrun, get_update_self, ht]; rfl
    · simp [writtenPct, hd]
    · simp

/-- Invariant of a hook-event sequence over a live, non-cancelled task:
the observed percents follow the written percents, stay chained
non-decreasing when the written percents are, and stay at most 99. -/
theorem trace_invariant (id : TaskId) (evs : List HookEvent) :
    ∀ (reg : Registry) (t : TaskRec),
      _get_task reg id = some t → ¬ t.status = "cancelled" → t.percent ≤ 99 →
      (∀ d ∈ evs, d.status = some "downloading" ∨ d.status = some "finished") →
      List.Chain' (· ≤ ·) (t.percent :: evs.map writtenPct) →
      (List.Chain' (· ≤ ·) (t.percent :: percentTrace id reg evs) ∧
       ∃ t', _get_task (runHooks id reg evs) id = some t' ∧
         t'.percent ≤ 99 ∧ ¬ t'.status = "cancelled") := by
  induction evs with
  | nil =>
    intro reg t ht hc hp _ _
    exact ⟨List.chain'_singleton _, t, by simpa [runHooks] using ht, hp, hc⟩
  | cons d rest ih =>
    intro reg t ht hc hp hkinds hmono
    obtain ⟨t', hget', hpct', hc'⟩ :=
      hookStep_live id reg d t ht hc (hkinds d (List.mem_cons_self d rest))
    have hp' : t'.percent ≤ 99 := hpct' ▸ writtenPct_le_99 d
    have hmono' := (List.chain'_cons.mp (by simpa using hmono))
    have hkinds' : ∀ e ∈ rest, e.status = some "downloading" ∨ e.status = some "finished" :=
      fun e he => hkinds e (List.mem_cons_of_mem d he)
    have hrestmono : List.Chain' (· ≤ ·) (t'.percent :: rest.map writtenPct) := by
      rw [hpct']; exact hmono'.2
    obtain ⟨hchain, hfinal⟩ :=
      ih (hookStep id reg d) t' hget' hc' hp' hkinds' hrestmono
    constructor
    · have htrace : percentTrace id reg (d :: rest) =
          t'.percent :: percentTrace id (hookStep id reg d) rest := by
        rw [percentTrace]
        simp [hget']
      rw [htrace]
      exact List.chain'_cons.mpr ⟨hpct' ▸ hmono'.1, hchain⟩
    · have hrun : runHooks id reg (d :: rest) = runHooks id (hookStep id reg d) rest := rfl
      rw [hrun]
      exact hfinal

/-- A `downloading` progress event with known total size. -/
def dlEvent (dl total : Nat) : HookEvent :=
  { status := some "downloading", total_bytes := some total,
    downloaded_bytes := some dl }

/-- A `finished` progress event. -/
def finEvent : HookEvent := { status := some "finished" }

/-- Claim C2, counterexample: the hook recomputes percent from the
engine's byte counters with no clamp against the previous value, so a
later event reporting fewer downloaded bytes (which yt-dlp produces
when a fallback attempt or a second stream restarts the counter) makes
percent drop from 50 to 10 while the status is `downloading` in both
states — percent is not monotonically non-decreasing. -/
theorem c2_counterexample :
    percentTrace "t" [("t", { status := "starting" })]
      [dlEvent 50 100, dlEvent 10 100] = [50, 10] ∧
    (_get_task (runHooks "t" [("t", { status := "starting" })]
        [dlEvent 50 100, dlEvent 10 100]) "t").map TaskRec.status =
      some "downloading" ∧
    ¬ List.Chain' (· ≤ ·)
        (percentTrace "t" [("t", { status := "starting" })]
          [dlEvent 50 100, dlEvent 10 100]) := by
  have hpt : percentTrace "t" [("t", { status := "starting" })]
      [dlEvent 50 100, dlEvent 10 100] = [50, 10] := by decide
  refine ⟨hpt, by decide, ?_⟩
  intro hch
  rw [hpt] at hch
  have h1 := (List.chain'_cons.mp hch).1
  omega

/-- Claim C2 (amended): over the update sequence of a task's own
execution unit, percent never equals 100 in any state other than
`ready` — every hook update writes at most 99 and only the final
success update writes 100, simultaneously with status `ready` — and
percent is monotonically non-decreasing provided the engine's events
report non-decreasing computed percentages (the code does not enforce
monotonicity itself: a fresh fallback attempt or second stream resets
the byte counter and makes percent decrease). -/
theorem c2_amended (id : TaskId) (reg : Registry) (t : TaskRec) (evs : List HookEvent)
    (fp fn : String) (sz : Nat)
    (ht : _get_task reg id = some t) (hc : ¬ t.status = "cancelled")
    (hp : t.percent ≤ 99)
    (hkinds : ∀ d ∈ evs, d.status = some "downloading" ∨ d.status = some "finished")
    (hmono : List.Chain' (· ≤ ·) (t.percent :: evs.map writtenPct)) :
    List.Chain' (· ≤ ·) (t.percent :: percentTrace id reg evs) ∧
    (∀ t', _get_task (runHooks id reg evs) id = some t' → t'.percent ≤ 99) ∧
    (_get_task (applyFinal id (.ready fp fn sz) (runHooks id reg evs)) id).map
      (fun u => (u.status, u.percent)) = some ("ready", 100) := by
  obtain ⟨hchain, t', hget', hp', hc'⟩ :=
    trace_invariant id evs reg t ht hc hp hkinds hmono
  refine ⟨hchain, ?_, ?_⟩
  · intro t'' h''
    rw [hget'] at h''
    injection h'' with h
    rw [← h]
    exact hp'
  · have hfin : applyFinal id (.ready fp fn sz) (runHooks id reg evs) =
        _update_task (runHooks id reg evs) id (fun u =>
          { u with
              status := "ready", percent := 100, filepath := fp,
              filename := fn, filesize := sz,
              message := "ダウンロード準備完了" }) := rfl
    rw [hfin, get_update_self, hget']
    rfl

theorem c2_amended_witness :
    List.Chain' (· ≤ ·)
      (({ status := "starting" } : TaskRec).percent ::
        percentTrace "t" [("t", { status := "starting" })]
          [dlEvent 10 100, dlEvent 50 100, finEvent]) ∧
    (∀ t', _get_task (runHooks "t" [("t", { status := "starting" })]
        [dlEvent 10 100, dlEvent 50 100, finEvent]) "t" = some t' →
      t'.percent ≤ 99) ∧
    (_get_task (applyFinal "t" (.ready "v.mp4" "v.mp4" 5)
        (runHooks "t" [("t", { status := "starting" })]
          [dlEvent 10 100, dlEvent 50 100, finEvent])) "t").map
      (fun u => (u.status, u.percent)) = some ("ready", 100) :=
  c2_amended "t" _ _ _ "v.mp4" "v.mp4" 5 rfl (by decide) (by decide) (by decide)
    (by
      show List.Chain' (· ≤ ·) [0, 10, 50, 99]
      exact List.chain'_cons.mpr ⟨by omega, List.chain'_cons.mpr ⟨by omega,
        List.chain'_cons.mpr ⟨by omega, List.chain'_singleton _⟩⟩⟩)

/-! ## Claim C7 -/

/-- Claim C7: a download attempt failing with an authentication /
bot-detection message (the lowered message contains `sign in` or `bot`)
stops the candidate loop at once: the attempt list ends with that
candidate, no cleanup-and-continue happens, and the loop's error is
that failure's message, which the orchestrator then records as the
task's terminal `error`; in particular a chain whose first candidate
auth-fails performs exactly one attempt. -/
theorem c7_auth_abort (engine : String → AttemptOutcome)
    (cookieFor : Nat → List FileEntry) (fmt msg : String) (w : List FileEntry)
    (hf : engine fmt = .fail msg w) (hauth : isAuthError msg = true) :
    (∀ (rest : List String) (i : Nat) (dir : List FileEntry) (le : Option String),
      tryFormats engine cookieFor (fmt :: rest) i dir le =
        (some msg, (dir ++ cookieFor i) ++ w, [fmt])) ∧
    (∀ height : Nat,
      fmt = "bestvideo[height<=" ++ toString height ++ "]+bestaudio" →
      runDownloadVideo engine cookieFor height =
        (.error msg, cookieFor 0 ++ w, [fmt])) ∧
    (∀ (reg : Registry) (id : TaskId) (t : TaskRec), _get_task reg id = some t →
      (_get_task (applyFinal id (.error msg) reg) id).map
        (fun u => (u.status, u.message)) = some ("error", msg)) := by
  have hstep : ∀ (rest : List String) (i : Nat) (dir : List FileEntry)
      (le : Option String),
      tryFormats engine cookieFor (fmt :: rest) i dir le =
        (some msg, (dir ++ cookieFor i) ++ w, [fmt]) := by
    intro rest i dir le
    simp [tryFormats, hf, hauth]
  refine ⟨hstep, ?_, ?_⟩
  · intro height heq
    have : _video_format_chain height =
        fmt :: ["bestvideo+bestaudio",
                "best[height<=" ++ toString height ++ "]", "best"] := by
      rw [heq]; rfl
    rw [runDownloadVideo, runCandidates, this, hstep]
    simp
  · intro reg id t ht
    have hfin : applyFinal id (.error msg) reg =
        _update_task reg id (fun u => { u with status := "error", message := msg }) := rfl
    rw [hfin, get_update_self, ht]
    rfl

theorem c7_auth_abort_witness :
    runDownloadVideo (fun _ => .fail "sign in required" []) (fun _ => []) 720 =
      (.error "sign in required", [], ["bestvideo[height<=720]+bestaudio"]) :=
  (c7_auth_abort (fun _ => .fail "sign in required" []) (fun _ => [])
      "bestvideo[height<=720]+bestaudio" "sign in required" [] rfl
      (by decide)).2.1 720 rfl

/-! ## Claim C6 -/

theorem cleanup_cookie (dir : List FileEntry) (f : FileEntry)
    (h : f ∈ cleanupPartials dir) : strStarts f.name "cookies_" = true :=
  (List.mem_filter.mp h).2

theorem cookieOnly_filter_nil (l : List FileEntry)
    (h : ∀ f ∈ l, strStarts f.name "cookies_" = true) :
    l.filter isResultFile = [] := by
  rw [List.filter_eq_nil_iff]
  intro f hf
  rw [isResultFile, h f hf]
  simp

theorem foldl_pick_mem (rest : List FileEntry) :
    ∀ a : FileEntry,
      rest.foldl (fun best g => if best.size < g.size then g else best) a ∈ a :: rest := by
  induction rest with
  | nil => intro a; exact List.mem_cons_self a []
  | cons g rest ih =>
    intro a
    rw [List.foldl_cons]
    by_cases h : a.size < g.size
    · rw [if_pos h]
      rcases List.mem_cons.mp (ih g) with h' | h'
      · rw [h']; exact List.mem_cons_of_mem _ (List.mem_cons_self _ _)
      · exact List.mem_cons_of_mem _ (List.mem_cons_of_mem _ h')
    · rw [if_neg h]
      rcases List.mem_cons.mp (ih a) with h' | h'
      · rw [h']; exact List.mem_cons_self _ _
      · exact List.mem_cons_of_mem _ (List.mem_cons_of_mem _ h')

theorem pickLargest_mem (l : List FileEntry) (f : FileEntry)
    (h : pickLargest l = some f) : f ∈ l := by
  cases l with
  | nil => simp [pickLargest] at h
  | cons a rest =>
    rw [pickLargest] at h
    injection h with h
    rw [← h]
    exact foldl_pick_mem rest a

theorem tryFormats_ok_head (engine : String → AttemptOutcome)
    (cookieFor : Nat → List FileEntry) (fmt : String) (rest : List String)
    (i : Nat) (dir : List FileEntry) (le : Option String)
    (written : List FileEntry) (hf : engine fmt = .ok written) :
    tryFormats engine cookieFor (fmt :: rest) i dir le =
      (none, (dir ++ cookieFor i) ++ written, [fmt]) := by
  simp [tryFormats, hf]

theorem tryFormats_genfail_head (engine : String → AttemptOutcome)
    (cookieFor : Nat → List FileEntry) (fmt : String) (rest : List String)
    (i : Nat) (dir : List FileEntry) (le : Option String)
    (msg : String) (written : List FileEntry)
    (hf : engine fmt = .fail msg written) (hna : isAuthError msg = false) :
    tryFormats engine cookieFor (fmt :: rest) i dir le =
      ((tryFormats engine cookieFor rest (i + 1)
          (cleanupPartials ((dir ++ cookieFor i) ++ written)) (some msg)).1,
       (tryFormats engine cookieFor rest (i + 1)
          (cleanupPartials ((dir ++ cookieFor i) ++ written)) (some msg)).2.1,
       fmt :: (tryFormats engine cookieFor rest (i + 1)
          (cleanupPartials ((dir ++ cookieFor i) ++ written)) (some msg)).2.2) := by
  simp [tryFormats, hf, hna]

/-- Shape of the loop when a (possibly empty) prefix of candidates
fails with generic errors and the next candidate succeeds: all
candidates up to and including the succeeding one are attempted in
order, and the final directory is the successful attempt's files plus
its fresh cookie on top of a residue that — as soon as at least one
cleanup ran — consists of cookie copies only. -/
theorem tryFormats_fails_then_ok (engine : String → AttemptOutcome)
    (cookieFor : Nat → List FileEntry) (okFmt : String) (w : List FileEntry)
    (hok : engine okFmt = .ok w) :
    ∀ (fails : List String),
      (∀ fmt ∈ fails, ∃ m wr, engine fmt = .fail m wr ∧ isAuthError m = false) →
      ∀ (i : Nat) (dir : List FileEntry) (le : Option String),
        ∃ dirPre : List FileEntry,
          tryFormats engine cookieFor (fails ++ [okFmt]) i dir le =
            (none, (dirPre ++ cookieFor (i + fails.length)) ++ w, fails ++ [okFmt]) ∧
          (fails = [] → dirPre = dir) ∧
          (fails ≠ [] → ∀ f ∈ dirPre, strStarts f.name "cookies_" = true) := by
  intro fails
  induction fails with
  | nil =>
    intro _ i dir le
    refine ⟨dir, ?_, fun _ => rfl, fun h => absurd rfl h⟩
    rw [List.nil_append, tryFormats_ok_head engine cookieFor okFmt [] i dir le w hok]
    rfl
  | cons fmt fails ih =>
    intro hfails i dir le
    obtain ⟨m, wr, hf, hna⟩ := hfails fmt (List.mem_cons_self fmt fails)
    have hfails' : ∀ g ∈ fails, ∃ m wr, engine g = .fail m wr ∧ isAuthError m = false :=
      fun g hg => hfails g (List.mem_cons_of_mem fmt hg)
    obtain ⟨dirPre, hres, hnil, hcook⟩ :=
      ih hfails' (i + 1) (cleanupPartials ((dir ++ cookieFor i) ++ wr)) (some m)
    refine ⟨dirPre, ?_, ?_, ?_⟩
    · rw [List.cons_append,
        tryFormats_genfail_head engine cookieFor fmt (fails ++ [okFmt]) i dir le m wr hf hna,
        hres]
      have harith : i + 1 + fails.length = i + (fmt :: fails).length := by
        rw [List.length_cons]; omega
      rw [harith]
    · intro h
      exact absurd h (List.cons_ne_nil fmt fails)
    · intro _ f hfmem
      by_cases hfe : fails = []
      · rw [hnil hfe] at hfmem
        exact cleanup_cookie _ _ hfmem
      · exact hcook hfe f hfmem

/-- Claim C6: for a video request of height `height` where the first
three candidates fail with generic (non-auth) errors and the fourth
succeeds, the orchestrator attempts exactly the four candidates of
`_video_format_chain` in order, ends with the success outcome (which
`applyFinal` turns into status `ready`), every non-credential file
left in the working directory comes from the successful fourth
attempt — the partial files of the three failed attempts were all
deleted — and each inter-attempt cleanup keeps only credential
(cookie) copies. -/
theorem c6_fallback (engine : String → AttemptOutcome)
    (cookieFor : Nat → List FileEntry) (height : Nat)
    (m1 m2 m3 : String) (w1 w2 w3 w4 : List FileEntry)
    (h1 : engine ("bestvideo[height<=" ++ toString height ++ "]+bestaudio") = .fail m1 w1)
    (h2 : engine "bestvideo+bestaudio" = .fail m2 w2)
    (h3 : engine ("best[height<=" ++ toString height ++ "]") = .fail m3 w3)
    (h4 : engine "best" = .ok w4)
    (ha1 : isAuthError m1 = false) (ha2 : isAuthError m2 = false)
    (ha3 : isAuthError m3 = false)
    (hck : ∀ i : Nat, ∀ f ∈ cookieFor i, strStarts f.name "cookies_" = true)
    (hw4 : ∃ f ∈ w4, isResultFile f = true) :
    (runDownloadVideo engine cookieFor height).2.2 = _video_format_chain height ∧
    (∃ f ∈ w4,
      (runDownloadVideo engine cookieFor height).1 = .ready f.name f.name f.size) ∧
    (∀ f ∈ (runDownloadVideo engine cookieFor height).2.1,
      isResultFile f = true → f ∈ w4) ∧
    (∀ dir : List FileEntry, ∀ f ∈ cleanupPartials dir,
      strStarts f.name "cookies_" = true) := by
  have hfails : ∀ fmt ∈ [("bestvideo[height<=" ++ toString height ++ "]+bestaudio"),
      "bestvideo+bestaudio", ("best[height<=" ++ toString height ++ "]")],
      ∃ m wr, engine fmt = .fail m wr ∧ isAuthError m = false := by
    intro fmt hmem
    simp only [List.mem_cons, List.not_mem_nil, or_false] at hmem
    rcases hmem with rfl | rfl | rfl
    · exact ⟨m1, w1, h1, ha1⟩
    · exact ⟨m2, w2, h2, ha2⟩
    · exact ⟨m3, w3, h3, ha3⟩
  obtain ⟨dirPre, hres, _, hcook⟩ :=
    tryFormats_fails_then_ok engine cookieFor "best" w4 h4
      [("bestvideo[height<=" ++ toString height ++ "]+bestaudio"),
       "bestvideo+bestaudio", ("best[height<=" ++ toString height ++ "]")]
      hfails 0 [] none
  have hcookPre : ∀ f ∈ dirPre, strStarts f.name "cookies_" = true :=
    hcook (List.cons_ne_nil _ _)
  have hchain : _video_format_chain height =
      [("bestvideo[height<=" ++ toString height ++ "]+bestaudio"),
       "bestvideo+bestaudio", ("best[height<=" ++ toString height ++ "]")] ++ ["best"] := rfl
  have hrunc : runDownloadVideo engine cookieFor height =
      (finishScan ((dirPre ++ cookieFor (0 + 3)) ++ w4),
       (dirPre ++ cookieFor (0 + 3)) ++ w4,
       _video_format_chain height) := by
    rw [runDownloadVideo, runCandidates, hchain, hres]
    rfl
  have hfil : ((dirPre ++ cookieFor (0 + 3)) ++ w4).filter isResultFile =
      w4.filter isResultFile := by
    rw [List.filter_append, List.filter_append,
      cookieOnly_filter_nil dirPre hcookPre,
      cookieOnly_filter_nil (cookieFor (0 + 3)) (hck (0 + 3))]
    simp
  refine ⟨by rw [hrunc], ?_, ?_, fun dir f h => cleanup_cookie dir f h⟩
  · obtain ⟨f0, hf0, hf0r⟩ := hw4
    have hne : w4.filter isResultFile ≠ [] := by
      intro hnil
      have hmemf : f0 ∈ w4.filter isResultFile := List.mem_filter.mpr ⟨hf0, hf0r⟩
      rw [hnil] at hmemf
      exact absurd hmemf (List.not_mem_nil f0)
    cases hfl : w4.filter isResultFile with
    | nil => exact absurd hfl hne
    | cons a l =>
      have hmeml : (l.foldl (fun best g => if best.size < g.size then g else best) a)
          ∈ w4.filter isResultFile := by
        rw [hfl]
        exact foldl_pick_mem l a
      refine ⟨_, (List.mem_filter.mp hmeml).1, ?_⟩
      rw [hrunc]
      show finishScan ((dirPre ++ cookieFor (0 + 3)) ++ w4) = _
      rw [finishScan, hfil, hfl, pickLargest]
  · intro f hfD hfres
    rw [hrunc] at hfD
    have hfD' : f ∈ (dirPre ++ cookieFor (0 + 3)) ++ w4 := hfD
    rcases List.mem_append.mp hfD' with hf' | hf'
    · exfalso
      rcases List.mem_append.mp hf' with hf'' | hf''
      · have hcf := hcookPre f hf''
        rw [isResultFile, hcf] at hfres
        simp at hfres
      · have hcf := hck (0 + 3) f hf''
        rw [isResultFile, hcf] at hfres
        simp at hfres
    · exact hf'

/-- A fetch engine that fails generically on every candidate except
`best`, which succeeds with one media file. -/
def fallbackEngine : String → AttemptOutcome := fun fmt =>
  if fmt = "best" then .ok [{ name := "video.mp4", size := 1000 }]
  else .fail ("HTTP Error 403 for " ++ fmt) [{ name := "video.part", size := 10 }]

/-- One fresh writable cookie copy materialised per attempt. -/
def cookieCopies : Nat → List FileEntry :=
  fun _ => [{ name := "cookies_a.txt", size := 1 }]

theorem c6_fallback_witness :
    (runDownloadVideo fallbackEngine cookieCopies 720).2.2 = _video_format_chain 720 ∧
    (∃ f ∈ [({ name := "video.mp4", size := 1000 } : FileEntry)],
      (runDownloadVideo fallbackEngine cookieCopies 720).1 = .ready f.name f.name f.size) ∧
    (∀ f ∈ (runDownloadVideo fallbackEngine cookieCopies 720).2.1,
      isResultFile f = true → f ∈ [({ name := "video.mp4", size := 1000 } : FileEntry)]) ∧
    (∀ dir : List FileEntry, ∀ f ∈ cleanupPartials dir,
      strStarts f.name "cookies_" = true) :=
  c6_fallback fallbackEngine cookieCopies 720
    "HTTP Error 403 for bestvideo[height<=720]+bestaudio"
    "HTTP Error 403 for bestvideo+bestaudio"
    "HTTP Error 403 for best[height<=720]"
    [{ name := "video.part", size := 10 }] [{ name := "video.part", size := 10 }]
    [{ name := "video.part", size := 10 }] [{ name := "video.mp4", size := 1000 }]
    (by decide) (by decide) (by decide) (by decide)
    (by decide) (by decide) (by decide)
    (by
      intro i f hf
      have hf' := List.mem_singleton.mp hf
      rw [hf']
      decide)
    (by decide)

/-! ## Claim C8 -/

theorem mem_sweepExpired (reg : Registry) (now : Int) (id : TaskId) :
    id ∈ sweepExpired reg now ↔
      ∃ t, (id, t) ∈ reg ∧ now - t.created_at > FILE_TTL_SEC ∧
        removableStatus t.status = true := by
  simp only [sweepExpired, List.mem_map, List.mem_filter]
  constructor
  · rintro ⟨p, ⟨hmem, hpred⟩, hfst⟩
    rw [Bool.and_eq_true, decide_eq_true_eq] at hpred
    refine ⟨p.2, ?_, hpred.1, hpred.2⟩
    rw [← hfst, Prod.mk.eta]
    exact hmem
  · rintro ⟨t, hmem, hage, hrem⟩
    exact ⟨(id, t), ⟨hmem, by rw [Bool.and_eq_true, decide_eq_true_eq]; exact ⟨hage, hrem⟩⟩, rfl⟩

/-- Claim C8: one pass of the periodic sweep removes a registry entry —
and collects its id for working-directory deletion — precisely when its
status is in ready / error / completed and its age `now - created_at`
strictly exceeds `FILE_TTL_SEC`; an entry failing either condition
survives the pass with its record untouched. -/
theorem c8_ttl_sweep (reg : Registry) (now : Int) (id : TaskId) (t : TaskRec)
    (hnd : (reg.map Prod.fst).Nodup) (ht : _get_task reg id = some t) :
    (_get_task (sweepPass reg now).1 id = none ↔
      (now - t.created_at > FILE_TTL_SEC ∧ removableStatus t.status = true)) ∧
    (¬ (now - t.created_at > FILE_TTL_SEC ∧ removableStatus t.status = true) →
      _get_task (sweepPass reg now).1 id = some t) ∧
    (id ∈ (sweepPass reg now).2 ↔
      (now - t.created_at > FILE_TTL_SEC ∧ removableStatus t.status = true)) := by
  have hexp : id ∈ sweepExpired reg now ↔
      (now - t.created_at > FILE_TTL_SEC ∧ removableStatus t.status = true) := by
    rw [mem_sweepExpired]
    constructor
    · rintro ⟨t', hmem, hage, hrem⟩
      have heq := mem_get_nodup reg id t t' hnd ht hmem
      rw [heq] at hage hrem
      exact ⟨hage, hrem⟩
    · rintro ⟨hage, hrem⟩
      exact ⟨t, get_mem reg id t ht, hage, hrem⟩
  have hget : _get_task (sweepPass reg now).1 id =
      if id ∈ sweepExpired reg now then none else _get_task reg id :=
    get_fold_remove _ reg id
  refine ⟨?_, ?_, ?_⟩
  · rw [hget]
    by_cases h : id ∈ sweepExpired reg now
    · simp [h, hexp.mp h]
    · rw [if_neg h, ht]
      constructor
      · intro hco
        exact absurd hco (Option.some_ne_none t)
      · intro hp
        exact absurd (hexp.mpr hp) h
  · intro hnp
    rw [hget, if_neg (fun h => hnp (hexp.mp h)), ht]
  · exact hexp

theorem c8_ttl_sweep_witness :
    ((_get_task (sweepPass [("a", { status := "ready", created_at := 0 })] 2000).1 "a" =
        none ↔
      ((2000 : Int) - ({ status := "ready", created_at := 0 } : TaskRec).created_at >
          FILE_TTL_SEC ∧
        removableStatus ({ status := "ready", created_at := 0 } : TaskRec).status = true)) ∧
    (¬ ((2000 : Int) - ({ status := "ready", created_at := 0 } : TaskRec).created_at >
          FILE_TTL_SEC ∧
        removableStatus ({ status := "ready", created_at := 0 } : TaskRec).status = true) →
      _get_task (sweepPass [("a", { status := "ready", created_at := 0 })] 2000).1 "a" =
        some { status := "ready", created_at := 0 }) ∧
    ("a" ∈ (sweepPass [("a", { status := "ready", created_at := 0 })] 2000).2 ↔
      ((2000 : Int) - ({ status := "ready", created_at := 0 } : TaskRec).created_at >
          FILE_TTL_SEC ∧
        removableStatus ({ status := "ready", created_at := 0 } : TaskRec).status = true))) :=
  c8_ttl_sweep [("a", { status := "ready", created_at := 0 })] 2000 "a"
    { status := "ready", created_at := 0 } (by simp) rfl

/-! ## Claim C10 -/

/-- Claim C10: `cancelled` is not among the sweep's removable statuses,
so a pass of the periodic sweep leaves every cancelled entry in the
registry with its record unchanged and never schedules its working
directory for deletion, regardless of the entry's age. -/
theorem c10_sweep_keeps_cancelled (reg : Registry) (now : Int) (id : TaskId)
    (t : TaskRec) (hnd : (reg.map Prod.fst).Nodup)
    (ht : _get_task reg id = some t) (hc : t.status = "cancelled") :
    _get_task (sweepPass reg now).1 id = some t ∧ id ∉ (sweepPass reg now).2 := by
  have hnotexp : id ∉ sweepExpired reg now := by
    intro hmem
    obtain ⟨t', hmem', hage, hrem⟩ := (mem_sweepExpired reg now id).mp hmem
    have heq := mem_get_nodup reg id t t' hnd ht hmem'
    rw [heq, hc] at hrem
    exact absurd hrem (by decide)
  constructor
  · have hget : _get_task (sweepPass reg now).1 id =
        if id ∈ sweepExpired reg now then none else _get_task reg id :=
      get_fold_remove _ reg id
    rw [hget, if_neg hnotexp, ht]
  · exact hnotexp

theorem c10_sweep_keeps_cancelled_witness :
    _get_task (sweepPass [("b", { status := "cancelled", created_at := 0 })] 1000000).1
        "b" = some { status := "cancelled", created_at := 0 } ∧
    "b" ∉ (sweepPass [("b", { status := "cancelled", created_at := 0 })] 1000000).2 :=
  c10_sweep_keeps_cancelled [("b", { status := "cancelled", created_at := 0 })]
    1000000 "b" { status := "cancelled", created_at := 0 } (by simp) rfl rfl
